import Mathlib

/-!
Verification of the quiz repository's explanation pipeline.

Shallow embedding of `src/ai_service.py` (class `AIExplanationService`) and the
grading logic of `src/main.py` (`get_results`).  Python dictionaries with string
keys are modelled as association lists built only through `insertKV`, which
replaces the value of an existing key in place and appends fresh keys (the
semantics of `d[k] = v` on a dict, whose keys are unique).  `None` returns are
modelled with `Option`; a body of code that can raise is modelled as a function
returning `Option`, with `none` standing for the raised exception at the point
where the surrounding `try` observes it.  Python `str.split(sep)` is modelled by
`pySplitOn` below (non-overlapping, left-to-right, keeps empty chunks), written
with explicit fuel so that it evaluates inside the kernel.
-/

namespace Quiz

/-- A question record of the quiz store (one JSON object of the quiz data file).
`correct` and `user_answer` are the source's list-of-zero-or-one encodings; a
record with no `user_answer`/`correct` field behaves as the empty list, which is
how `main.py` reads them (`question.get("user_answer", [])`). -/
structure Question where
  id : Int
  question : String
  options : List String
  correct : List String
  user_answer : List String
deriving Repr, DecidableEq

/-- An incorrect-answer item as built in `main.py::get_results`:
`{"question_data": question, "user_answer": user_answer[0], "correct_answer": correct_answer}`. -/
structure IncorrectItem where
  question_data : Question
  user_answer : String
  correct_answer : String
deriving Repr, DecidableEq

/-! ### Python `str.split` -/

/-- `startsWithL s pat`: the char list `s` starts with `pat`. -/
def startsWithL : List Char → List Char → Bool
  | _, [] => true
  | [], _ :: _ => false
  | c :: cs, d :: ds => c == d && startsWithL cs ds

/-- Worker for `pySplitOn`; `fuel` bounds the recursion (one unit per examined
character, so `fuel = s.length` suffices), `acc` holds the current chunk
reversed. -/
def splitCharsGo (sep : List Char) : Nat → List Char → List Char → List (List Char)
  | _, acc, [] => [acc.reverse]
  | 0, acc, s => [acc.reverse ++ s]
  | fuel + 1, acc, c :: rest =>
    if startsWithL (c :: rest) sep then
      acc.reverse :: splitCharsGo sep fuel [] (List.drop (sep.length - 1) rest)
    else
      splitCharsGo sep fuel (c :: acc) rest

/-- Model of Python `s.split(sep)` for a non-empty separator: split at every
non-overlapping occurrence of `sep`, scanning left to right, keeping empty
chunks (`"axb".split("x") == ["a","b"]`, `"x".split("x") == ["",""]`). -/
def pySplitOn (s sep : String) : List String :=
  (splitCharsGo sep.data s.data.length [] s.data).map (fun cs => String.mk cs)

/-- Accumulate a decimal digit string into a number; `none` on the first
non-digit character or on an empty digit string. -/
def digitsToNat (acc : Nat) : List Char → Option Nat
  | [] => some acc
  | c :: rest =>
    if c.isDigit then digitsToNat (acc * 10 + (c.toNat - 48)) rest else none

/-- Model of Python `int(s)` (raising `ValueError` ↦ `none`): surrounding
whitespace is ignored, an optional sign is followed by at least one decimal
digit, leading zeros are allowed.  (Digit-grouping underscores, accepted by
Python between digits, are not modelled.) -/
def pyInt? (s : String) : Option Int :=
  match (s.data.dropWhile Char.isWhitespace).reverse.dropWhile Char.isWhitespace
    |>.reverse with
  | [] => none
  | '-' :: ds =>
    if ds.isEmpty then none else (digitsToNat 0 ds).map (fun n => -(n : Int))
  | '+' :: ds =>
    if ds.isEmpty then none else (digitsToNat 0 ds).map Int.ofNat
  | ds => (digitsToNat 0 ds).map Int.ofNat

/-- Model of Python `s.strip()`: drop leading and trailing whitespace
characters (written over the char list so that it evaluates in the kernel). -/
def pyStrip (s : String) : String :=
  String.mk (((s.data.dropWhile Char.isWhitespace).reverse.dropWhile
    Char.isWhitespace).reverse)

/-! ### Dictionaries as association lists -/

/-- Model of `k in d` on a Python dict. -/
def containsKey (m : List (String × String)) (k : String) : Bool :=
  m.any (fun p => p.1 == k)

/-- Model of `d.get(k)` on a Python dict. -/
def lookupKV (m : List (String × String)) (k : String) : Option String :=
  (m.find? (fun p => p.1 == k)).map Prod.snd

/-- Model of `d[k] = v` on a Python dict: overwrite the (unique) existing entry
for `k`, or append a new one. -/
def insertKV : List (String × String) → String → String → List (String × String)
  | [], k, v => [(k, v)]
  | p :: rest, k, v => if p.1 == k then (k, v) :: rest else p :: insertKV rest k v

/-! ### AIExplanationService -/

namespace AIService

/-- The mutable attributes of an `AIExplanationService` instance
(`ai_service.py` lines 21-25). -/
structure ServiceState where
  api_key : String
  enabled : Bool
  request_count : Nat
  total_questions_processed : Nat
deriving Repr, DecidableEq

/-- `AIExplanationService.__init__`: `enabled = ENABLE_AI_EXPLANATIONS and bool(api_key)`,
counters start at zero.  The configuration values are parameters of the model. -/
def mkService (google_api_key : String) (enable_ai_explanations : Bool) : ServiceState :=
  { api_key := google_api_key
    enabled := enable_ai_explanations && !google_api_key.isEmpty
    request_count := 0
    total_questions_processed := 0 }

/-- `AIExplanationService._get_question_key`:
`f"{question_info['question_data']['id']}_{question_info['user_answer']}_{question_info['correct_answer']}"`. -/
def _get_question_key (q : IncorrectItem) : String :=
  toString q.question_data.id ++ "_" ++ q.user_answer ++ "_" ++ q.correct_answer

/-- `AIExplanationService._get_default_explanation`: fixed Georgian markdown
template depending only on the two answer letters. -/
def _get_default_explanation (user_answer correct_answer : String) : String :=
  "**თქვენი პასუხი:** " ++ user_answer ++ " ❌  \n**სწორი პასუხი:** " ++ correct_answer
    ++ " ✅\n\n💡 **რჩევა:** გადახედეთ სასწავლო მასალას ამ თემაზე."

/-- The dict comprehension
`{self._get_question_key(q): self._get_default_explanation(q["user_answer"], q["correct_answer"]) for q in incorrect_questions}`
(worker with explicit accumulator). -/
def defaultsGo (acc : List (String × String)) : List IncorrectItem → List (String × String)
  | [] => acc
  | q :: rest =>
    defaultsGo (insertKV acc (_get_question_key q)
      (_get_default_explanation q.user_answer q.correct_answer)) rest

/-- The default-explanations mapping returned on every fallback path. -/
def defaultsMap (items : List IncorrectItem) : List (String × String) :=
  defaultsGo [] items

/-- `option_labels = ['A', 'B', 'C', 'D']` (`_create_batch_prompt`, line 117). -/
def optionLabels : List String := ["A", "B", "C", "D"]

/-- The `options_text` loop of `_create_batch_prompt`:
`for j, option in enumerate(question["options"]): options_text += f"{option_labels[j]}. {option}\n"`.
`none` models the `IndexError` raised by `option_labels[j]` when `j` reaches 4. -/
def optionsTextGo (j : Nat) (acc : String) : List String → Option String
  | [] => some acc
  | o :: rest =>
    match optionLabels.get? j with
    | none => none
    | some lab => optionsTextGo (j + 1) (acc ++ lab ++ ". " ++ o ++ "\n") rest

/-- The `questions_text` loop of `_create_batch_prompt`
(`for i, q_info in enumerate(incorrect_questions, 1)`), propagating an
`IndexError` from the inner options loop. -/
def questionsTextGo (i : Nat) (acc : String) : List IncorrectItem → Option String
  | [] => some acc
  | qi :: rest =>
    match optionsTextGo 0 "" qi.question_data.options with
    | none => none
    | some optsText =>
      questionsTextGo (i + 1)
        (acc ++ "\n---\n**კითხვა " ++ toString i ++ " (ID: "
          ++ toString qi.question_data.id ++ "):**\n" ++ qi.question_data.question
          ++ "\n\n**ვარიანტები:**\n" ++ optsText
          ++ "\n**მოსწავლის პასუხი:** " ++ qi.user_answer
          ++ "\n**სწორი პასუხი:** " ++ qi.correct_answer ++ "\n") rest

/-- The fixed instructional text of the batch prompt before `{questions_text}`. -/
def promptIntro : String :=
  "თქვენ ხართ IT განათლების ექსპერტი და პროგრამირების ინსტრუქტორი. ქვემოთ მოცემული ყველა კითხვა დაკავშირებულია ინფორმაციულ ტექნოლოგიებთან, პროგრამირებასთან, კომპიუტერულ მეცნიერებასთან და ქსელურ ტექნოლოგიებთან.\n\nგთხოვთ ახსნათ ქართულ ენაზე რატომ არის არასწორი თითოეული მოცემული პასუხი, გამოიყენეთ IT ტერმინოლოგია და ტექნიკური ცოდნა.\n\n"

/-- The fixed instructional text of the batch prompt after `{questions_text}`
(requirements and the expected per-item header format). -/
def promptOutro : String :=
  "\n\n**მოთხოვნები:**\n1. თითოეული კითხვისთვის მოკლე, ლაკონური ახსნა\n2. მოიცავდეს რატომ არის სწორი სწორი პასუხი (IT ტექნიკური თვალსაზრისით)\n3. რატომ არის არასწორი მოსწავლის პასუხი (ტექნიკური განმარტებით)\n4. გამოიყენეთ markdown ფორმატირება\n5. მაქსიმუმ 2-3 წინადადება თითო კითხვაზე\n6. გამოიყენეთ ქართული IT ტერმინოლოგია და ტექნიკური ენა\n\n**ფორმატი:**\n```\n### კითხვა 1 (ID: X)\n**სწორი პასუხი (Y):** [IT ტექნიკური ახსნა]\n**რატომაა არასწორი (Z):** [ტექნიკური განმარტება]\n\n### კითხვა 2 (ID: X)\n...\n```"

/-- `AIExplanationService._create_batch_prompt`; `none` models the uncaught
`IndexError` escaping from the options loop (a question with more than four
options). -/
def _create_batch_prompt (items : List IncorrectItem) : Option String :=
  (questionsTextGo 1 "" items).map (fun qt => promptIntro ++ qt ++ promptOutro)

/-- The section-header marker the parser splits on (`"### კითხვა"`). -/
def headerMarker : String := "### კითხვა"

/-- The body of one iteration of the parsing loop of `_parse_batch_response`
(lines 173-190), for the `i`-th section (1-based).  Returns the `(key, text)`
pair stored by `explanations[key] = explanation`, or `none` when the iteration
stores nothing (identifier missing, unparseable or unmatched, or an exception
caught by the `try`/`except` of the loop body).  `pyInt?` models
`int(id_match)` raising `ValueError` on a non-numeric string. -/
def parseSection (items : List IncorrectItem) (i : Nat) (sec : String) :
    Option (String × String) :=
  match (pySplitOn sec "(ID: ").get? 1 with
  | none => none
  | some afterId =>
    let idMatch := (pySplitOn afterId ")").headD ""
    if idMatch.isEmpty then none
    else
      match pyInt? idMatch with
      | none => none
      | some question_id =>
        match items.find? (fun q => q.question_data.id == question_id) with
        | none => none
        | some q_info =>
          match (pySplitOn sec ("(ID: " ++ toString question_id ++ ")")).get? 1 with
          | none => none
          | some afterCanonical =>
            some (_get_question_key q_info,
              headerMarker ++ " " ++ toString i ++ " (ID: " ++ toString question_id
                ++ ")\n" ++ pyStrip afterCanonical)

/-- The parsing loop of `_parse_batch_response` over `sections[1:]`, with the
1-based index `i` of `enumerate(sections[1:], 1)` and the `explanations`
accumulator. -/
def parsedGo (items : List IncorrectItem) : Nat → List (String × String) → List String →
    List (String × String)
  | _, acc, [] => acc
  | i, acc, sec :: rest =>
    match parseSection items i sec with
    | none => parsedGo items (i + 1) acc rest
    | some kv => parsedGo items (i + 1) (insertKV acc kv.1 kv.2) rest

/-- The `explanations` dict of `_parse_batch_response` after the parsing loop
and before the default-filling loop. -/
def parsedExplanations (ai_response : String) (items : List IncorrectItem) :
    List (String × String) :=
  parsedGo items 1 [] (List.tail (pySplitOn ai_response headerMarker))

/-- The default-filling loop of `_parse_batch_response` (lines 193-196):
`for q_info in incorrect_questions: if key not in explanations: explanations[key] = default`. -/
def fillDefaults (acc : List (String × String)) : List IncorrectItem → List (String × String)
  | [] => acc
  | q :: rest =>
    fillDefaults
      (if containsKey acc (_get_question_key q) then acc
       else insertKV acc (_get_question_key q)
         (_get_default_explanation q.user_answer q.correct_answer)) rest

/-- `AIExplanationService._parse_batch_response`. -/
def _parse_batch_response (ai_response : String) (items : List IncorrectItem) :
    List (String × String) :=
  fillDefaults (parsedExplanations ai_response items) items

/-- One `{"text": ...}` part of a Gemini response; a part with no `text` field
behaves as `""` (`parts[0].get('text', '')`). -/
structure GeminiPart where
  text : String
deriving Repr, DecidableEq

/-- One `{"content": {"parts": [...]}}` wrapper; a candidate with no `content`
field behaves as one with no parts (`candidates[0].get('content', {})`). -/
structure GeminiContent where
  parts : List GeminiPart
deriving Repr, DecidableEq

/-- One element of the `candidates` array. -/
structure GeminiCandidate where
  content : GeminiContent
deriving Repr, DecidableEq

/-- A decoded JSON response body; a body with no `candidates` field behaves as
one with an empty list (`data.get('candidates')` falsy). -/
structure GeminiBody where
  candidates : List GeminiCandidate
deriving Repr, DecidableEq

/-- The observable behaviour of the external world during the `try` block of
`get_batch_explanations`, after the prompt has been built: an exception
anywhere in session creation, transmission or body decoding, or an HTTP
response with a status code and (for status 200) the decoded JSON body, where
`none` models `response.json()` raising. -/
inductive ApiOutcome where
  | exception : ApiOutcome
  | response : Nat → Option GeminiBody → ApiOutcome
deriving Repr, DecidableEq

/-- Result of one call to `get_batch_explanations`: the returned value
(`none` models the Python function returning `None` by falling off the end),
the service state after the call, and whether the HTTP POST was attempted. -/
structure BatchResult where
  explanations : Option (List (String × String))
  state : ServiceState
  networkCalled : Bool
deriving Repr, DecidableEq

/-- The counter increments of `get_batch_explanations` lines 38-39, executed
before the `try` block on every enabled, non-empty call. -/
def bumpCounters (s : ServiceState) (batch_size : Nat) : ServiceState :=
  { s with
    request_count := s.request_count + 1
    total_questions_processed := s.total_questions_processed + batch_size }

/-- `AIExplanationService.get_batch_explanations` (lines 27-102).  The gate
`if not self.enabled or not incorrect_questions` comes first; the two counters
are incremented before the `try` block; inside it the prompt is built (a raised
`IndexError` is caught by the outer `except` with no network call), then the
POST is made and the response dispatched exactly as in the source; a 200
response whose body has no candidate with a non-empty parts list reaches no
`return` statement, so the Python function returns `None`. -/
def get_batch_explanations (s : ServiceState) (items : List IncorrectItem)
    (outcome : ApiOutcome) : BatchResult :=
  if !s.enabled || items.isEmpty then
    { explanations := some (defaultsMap items), state := s, networkCalled := false }
  else
    match _create_batch_prompt items with
    | none =>
      { explanations := some (defaultsMap items)
        state := bumpCounters s items.length, networkCalled := false }
    | some _prompt =>
      match outcome with
      | .exception =>
        { explanations := some (defaultsMap items)
          state := bumpCounters s items.length, networkCalled := true }
      | .response status json =>
        if status = 200 then
          match json with
          | none =>
            { explanations := some (defaultsMap items)
              state := bumpCounters s items.length, networkCalled := true }
          | some body =>
            match body.candidates with
            | [] =>
              { explanations := none
                state := bumpCounters s items.length, networkCalled := true }
            | c :: _ =>
              match c.content.parts with
              | [] =>
                { explanations := none
                  state := bumpCounters s items.length, networkCalled := true }
              | p :: _ =>
                { explanations := some (_parse_batch_response (pyStrip p.text) items)
                  state := bumpCounters s items.length, networkCalled := true }
        else
          { explanations := some (defaultsMap items)
            state := bumpCounters s items.length, networkCalled := true }

/-- The value returned by `AIExplanationService.get_statistics`. -/
structure Stats where
  total_requests : Nat
  total_questions_processed : Nat
  enabled : Bool
  api_key_configured : Bool
deriving Repr, DecidableEq

/-- `AIExplanationService.get_statistics`: read-only snapshot;
`api_key_configured` is `bool(self.api_key)`. -/
def get_statistics (s : ServiceState) : Stats :=
  { total_requests := s.request_count
    total_questions_processed := s.total_questions_processed
    enabled := s.enabled
    api_key_configured := !s.api_key.isEmpty }

/-- `AIExplanationService.reset_statistics`: zero both counters (the prior
values are only logged). -/
def reset_statistics (s : ServiceState) : ServiceState :=
  { s with request_count := 0, total_questions_processed := 0 }

end AIService

/-! ### main.py: get_results -/

namespace Main

/-- `correct_answer = correct_answer_list[0] if correct_answer_list else ""`. -/
def correctAnswer (q : Question) : String :=
  match q.correct with
  | [] => ""
  | c :: _ => c

/-- `is_correct = len(user_answer) > 0 and user_answer[0] == correct_answer`. -/
def isCorrect (q : Question) : Bool :=
  !q.user_answer.isEmpty && (q.user_answer.headD "" == correctAnswer q)

/-- One entry of `detailed_results` as appended by the loop (before the
explanation-merge step fills `ai_explanation`). -/
structure DetailedResult where
  id : Int
  question : String
  options : List String
  user_answer : Option String
  correct_answer : String
  is_correct : Bool
deriving Repr, DecidableEq

/-- The accumulator of the grading loop of `get_results`:
`correct_count`, `detailed_results` and `incorrect_questions`. -/
structure GradeState where
  correct_count : Nat
  detailed : List DetailedResult
  incorrect : List IncorrectItem
deriving Repr, DecidableEq

/-- One iteration of the grading loop of `get_results` (lines 137-164),
transcribed from the source: bump `correct_count` on a correct answer, append
an incorrect-answer item only for an answered wrong question, and always append
a detailed result with `ai_explanation` still unset. -/
def gradeStep (st : GradeState) (q : Question) : GradeState :=
  let correct_answer := correctAnswer q
  let is_correct := !q.user_answer.isEmpty && (q.user_answer.headD "" == correct_answer)
  let st1 :=
    if is_correct then { st with correct_count := st.correct_count + 1 }
    else if !q.user_answer.isEmpty then
      { st with incorrect := st.incorrect ++
          [{ question_data := q
             user_answer := q.user_answer.headD ""
             correct_answer := correct_answer }] }
    else st
  { st1 with detailed := st1.detailed ++
      [{ id := q.id
         question := q.question
         options := q.options
         user_answer := q.user_answer.head?
         correct_answer := correct_answer
         is_correct := is_correct }] }

/-- The grading loop, folded over the question collection in store order. -/
def gradeGo (st : GradeState) : List Question → GradeState
  | [] => st
  | q :: rest => gradeGo (gradeStep st q) rest

/-- The whole grading pass of `get_results` over the loaded quiz data. -/
def gradeAll (qs : List Question) : GradeState :=
  gradeGo { correct_count := 0, detailed := [], incorrect := [] } qs

/-- Per-question characterisation of the detailed result produced by the loop. -/
def detailedOf (q : Question) : DetailedResult :=
  { id := q.id
    question := q.question
    options := q.options
    user_answer := q.user_answer.head?
    correct_answer := correctAnswer q
    is_correct := isCorrect q }

/-- Per-question characterisation of the loop's contribution to
`incorrect_questions`: an item exactly for an answered wrong question. -/
def incorrectOf (q : Question) : Option IncorrectItem :=
  if isCorrect q then none
  else if q.user_answer.isEmpty then none
  else some
    { question_data := q
      user_answer := q.user_answer.headD ""
      correct_answer := correctAnswer q }

/-- The key recomputed by the result merger of `get_results` (line 177):
`f"{result['id']}_{result['user_answer']}_{result['correct_answer']}"`. -/
def explanationKey (id : Int) (user_answer correct_answer : String) : String :=
  toString id ++ "_" ++ user_answer ++ "_" ++ correct_answer

/-- Round to nearest with ties to even, the behaviour of Python `round` (exact
arithmetic model over `ℚ` of the source's float computation). -/
def roundHalfEven (q : ℚ) : ℤ :=
  let f := ⌊q⌋
  let r := q - f
  if r < 1 / 2 then f
  else if 1 / 2 < r then f + 1
  else if f % 2 = 0 then f else f + 1

/-- `round(x, 2)` as an exact operation on `ℚ`. -/
def roundTo2 (q : ℚ) : ℚ :=
  (roundHalfEven (q * 100) : ℚ) / 100

/-- The summary percentage of `get_results` (lines 180-185):
`percentage = (correct_count / total_questions) * 100 if total_questions > 0 else 0`,
then `round(percentage, 2)`. -/
def resultPercentage (correct_count total_questions : Nat) : ℚ :=
  roundTo2
    (if 0 < total_questions then ((correct_count : ℚ) / total_questions) * 100 else 0)

/-- How many questions the loop counts as correct. -/
def countCorrect : List Question → Nat
  | [] => 0
  | q :: rest => (if isCorrect q then 1 else 0) + countCorrect rest

end Main

/-! ## Helper lemmas -/

section AssocLemmas

theorem containsKey_insertKV (m : List (String × String)) (k v k' : String) :
    containsKey (insertKV m k v) k' = ((k == k') || containsKey m k') := by
  induction m with
  | nil => simp [insertKV, containsKey]
  | cons p rest ih =>
    by_cases h : p.1 = k
    · have hb : (p.1 == k) = true := by simp [h]
      simp only [insertKV, if_pos hb, containsKey, List.any_cons]
      subst h
      cases hpk : (p.1 == k') <;> simp [containsKey, hpk]
    · have hb : ¬((p.1 == k) = true) := by simp [h]
      simp only [insertKV, if_neg hb, containsKey, List.any_cons]
      have ih' : ((insertKV rest k v).any fun p => p.1 == k') =
          ((k == k') || containsKey rest k') := ih
      rw [ih']
      cases (p.1 == k') <;> cases (k == k') <;> simp [containsKey]

theorem lookupKV_insertKV_self (m : List (String × String)) (k v : String) :
    lookupKV (insertKV m k v) k = some v := by
  induction m with
  | nil =>
    simp only [insertKV, lookupKV]
    rw [List.find?_cons_of_pos _ (by simp)]
    rfl
  | cons p rest ih =>
    by_cases h : p.1 = k
    · have hb : (p.1 == k) = true := by simp [h]
      simp only [insertKV, if_pos hb, lookupKV]
      rw [List.find?_cons_of_pos _ (by simp)]
      rfl
    · have hb : ¬((p.1 == k) = true) := by simp [h]
      simp only [insertKV, if_neg hb, lookupKV]
      rw [List.find?_cons_of_neg _ (by simp [h])]
      exact ih

theorem lookupKV_insertKV_ne (m : List (String × String)) (k v k' : String)
    (h : k ≠ k') : lookupKV (insertKV m k v) k' = lookupKV m k' := by
  induction m with
  | nil =>
    simp only [insertKV, lookupKV, List.find?_nil]
    rw [List.find?_cons_of_neg _ (by simp [h])]
    rfl
  | cons p rest ih =>
    by_cases hp : p.1 = k
    · have hb : (p.1 == k) = true := by simp [hp]
      simp only [insertKV, if_pos hb, lookupKV]
      rw [List.find?_cons_of_neg _ (by simp [h]),
        List.find?_cons_of_neg _ (by simp [hp ▸ h])]
    · have hb : ¬((p.1 == k) = true) := by simp [hp]
      simp only [insertKV, if_neg hb, lookupKV]
      by_cases hp' : p.1 = k'
      · rw [List.find?_cons_of_pos _ (by simp [hp']),
          List.find?_cons_of_pos _ (by simp [hp'])]
      · rw [List.find?_cons_of_neg _ (by simp [hp']),
          List.find?_cons_of_neg _ (by simp [hp'])]
        exact ih

theorem lookupKV_eq_none_of_not_contains (m : List (String × String)) (k : String)
    (h : containsKey m k = false) : lookupKV m k = none := by
  induction m with
  | nil => simp [lookupKV]
  | cons p rest ih =>
    simp only [containsKey, List.any_cons, Bool.or_eq_false_iff] at h
    simp only [lookupKV, List.find?_cons, h.1]
    exact ih (by simpa [containsKey] using h.2)

theorem mem_insertKV (m : List (String × String)) (k v : String)
    (p : String × String) (h : p ∈ insertKV m k v) : p = (k, v) ∨ p ∈ m := by
  induction m with
  | nil => simpa [insertKV] using h
  | cons p0 rest ih =>
    by_cases h0 : p0.1 = k
    · simp only [insertKV, h0, beq_self_eq_true, if_true, List.mem_cons] at h
      rcases h with h | h
      · exact Or.inl h
      · exact Or.inr (List.mem_cons_of_mem _ h)
    · have hb : (p0.1 == k) = false := by simp [h0]
      simp only [insertKV, hb, Bool.false_eq_true, if_false, List.mem_cons] at h
      rcases h with h | h
      · exact Or.inr (by simp [h])
      · rcases ih h with h' | h'
        · exact Or.inl h'
        · exact Or.inr (List.mem_cons_of_mem _ h')

end AssocLemmas

namespace AIService

theorem containsKey_defaultsGo (items : List IncorrectItem) :
    ∀ (acc : List (String × String)) (k : String),
      containsKey (defaultsGo acc items) k =
        (containsKey acc k || items.any (fun q => _get_question_key q == k)) := by
  induction items with
  | nil => intro acc k; simp [defaultsGo]
  | cons q rest ih =>
    intro acc k
    simp only [defaultsGo, List.any_cons]
    rw [ih, containsKey_insertKV]
    cases h1 : (_get_question_key q == k) <;>
      cases h2 : containsKey acc k <;> simp [h1, h2]

theorem containsKey_defaultsMap (items : List IncorrectItem) (k : String) :
    containsKey (defaultsMap items) k = items.any (fun q => _get_question_key q == k) := by
  rw [defaultsMap, containsKey_defaultsGo]
  simp [containsKey]

theorem mem_defaultsGo (items : List IncorrectItem) :
    ∀ (acc : List (String × String)) (p : String × String),
      p ∈ defaultsGo acc items → p ∈ acc ∨ ∃ q ∈ items,
        p = (_get_question_key q,
          _get_default_explanation q.user_answer q.correct_answer) := by
  induction items with
  | nil => intro acc p h; exact Or.inl (by simpa [defaultsGo] using h)
  | cons q rest ih =>
    intro acc p h
    rcases ih _ _ h with h' | ⟨q', hq', he⟩
    · rcases mem_insertKV _ _ _ _ h' with h'' | h''
      · exact Or.inr ⟨q, List.mem_cons_self _ _, h''⟩
      · exact Or.inl h''
    · exact Or.inr ⟨q', List.mem_cons_of_mem _ hq', he⟩

theorem containsKey_fillDefaults (items : List IncorrectItem) :
    ∀ (acc : List (String × String)) (k : String),
      containsKey (fillDefaults acc items) k =
        (containsKey acc k || items.any (fun q => _get_question_key q == k)) := by
  induction items with
  | nil => intro acc k; simp [fillDefaults]
  | cons q rest ih =>
    intro acc k
    simp only [fillDefaults, List.any_cons]
    by_cases hc : containsKey acc (_get_question_key q) = true
    · rw [if_pos hc, ih]
      by_cases h : _get_question_key q = k
      · subst h; simp [hc]
      · have hb : (_get_question_key q == k) = false := by simp [h]
        rw [hb]; simp
    · rw [if_neg hc, ih, containsKey_insertKV]
      cases h1 : (_get_question_key q == k) <;>
        cases h2 : containsKey acc k <;> simp [h1, h2]

theorem lookupKV_fillDefaults_of_contains (items : List IncorrectItem) :
    ∀ (acc : List (String × String)) (k : String),
      containsKey acc k = true →
      lookupKV (fillDefaults acc items) k = lookupKV acc k := by
  induction items with
  | nil => intro acc k _; simp [fillDefaults]
  | cons q rest ih =>
    intro acc k hk
    simp only [fillDefaults]
    by_cases hc : containsKey acc (_get_question_key q) = true
    · rw [if_pos hc]; exact ih _ _ hk
    · rw [if_neg hc]
      have hne : _get_question_key q ≠ k := fun he => hc (he ▸ hk)
      rw [ih _ _ (by rw [containsKey_insertKV]; simp [hk])]
      exact lookupKV_insertKV_ne _ _ _ _ hne

theorem lookupKV_fillDefaults_of_not_contains (items : List IncorrectItem) :
    ∀ (acc : List (String × String)) (k : String),
      containsKey acc k = false →
      lookupKV (fillDefaults acc items) k =
        (items.find? (fun q => _get_question_key q == k)).map
          (fun q => _get_default_explanation q.user_answer q.correct_answer) := by
  induction items with
  | nil => intro acc k hk; simpa [fillDefaults] using lookupKV_eq_none_of_not_contains _ _ hk
  | cons q rest ih =>
    intro acc k hk
    simp only [fillDefaults]
    by_cases h : _get_question_key q = k
    · subst h
      rw [if_neg (by simp [hk]), List.find?_cons_of_pos _ (by simp)]
      rw [lookupKV_fillDefaults_of_contains _ _ _
        (by rw [containsKey_insertKV]; simp)]
      exact lookupKV_insertKV_self _ _ _
    · rw [List.find?_cons_of_neg _ (by simp [h])]
      by_cases hc : containsKey acc (_get_question_key q) = true
      · rw [if_pos hc]; exact ih _ _ hk
      · rw [if_neg hc, ih _ _ (by rw [containsKey_insertKV]; simp [hk, h])]

theorem optionsTextGo_none (opts : List String) :
    ∀ (j : Nat) (acc : String), 4 < j + opts.length → opts ≠ [] →
      optionsTextGo j acc opts = none := by
  induction opts with
  | nil => intro j acc _ hne; exact absurd rfl hne
  | cons o rest ih =>
    intro j acc h4 _
    simp only [optionsTextGo]
    by_cases hj : j < 4
    · cases hg : optionLabels.get? j with
      | none => rfl
      | some lab =>
        cases rest with
        | nil =>
          exfalso
          have hlen : ((o : String) :: ([] : List String)).length = 1 := rfl
          omega
        | cons r rs =>
          refine ih (j + 1) _ ?_ (by simp)
          have hlen : (o :: r :: rs).length = (r :: rs).length + 1 := rfl
          omega
    · have hg : optionLabels.get? j = none :=
        List.get?_len_le (by simp only [optionLabels]; simp; omega)
      rw [hg]

theorem questionsTextGo_none (items : List IncorrectItem) (q : IncorrectItem)
    (hq : q ∈ items) (h : optionsTextGo 0 "" q.question_data.options = none) :
    ∀ (i : Nat) (acc : String), questionsTextGo i acc items = none := by
  induction items with
  | nil => cases hq
  | cons qi rest ih =>
    intro i acc
    simp only [questionsTextGo]
    cases hopt : optionsTextGo 0 "" qi.question_data.options with
    | none => rfl
    | some t =>
      rcases List.mem_cons.mp hq with he | hm
      · rw [he] at h; rw [h] at hopt; cases hopt
      · exact ih hm _ _

theorem create_batch_prompt_none (items : List IncorrectItem) (q : IncorrectItem)
    (hq : q ∈ items) (hlen : 4 < q.question_data.options.length) :
    _create_batch_prompt items = none := by
  have hopts : optionsTextGo 0 "" q.question_data.options = none :=
    optionsTextGo_none _ 0 "" (by omega)
      (List.ne_nil_of_length_pos (by omega))
  rw [_create_batch_prompt, questionsTextGo_none items q hq hopts]
  rfl

theorem get_batch_explanations_state (s : ServiceState) (items : List IncorrectItem)
    (outcome : ApiOutcome) :
    (get_batch_explanations s items outcome).state =
      if (!s.enabled || items.isEmpty) then s else bumpCounters s items.length := by
  unfold get_batch_explanations
  by_cases hg : (!s.enabled || items.isEmpty) = true
  · rw [if_pos hg, if_pos hg]
  · rw [if_neg hg, if_neg hg]
    cases hp : _create_batch_prompt items with
    | none => rfl
    | some p =>
      cases outcome with
      | exception => rfl
      | response status json =>
        dsimp only
        by_cases hs : status = 200
        · rw [if_pos hs]
          cases json with
          | none => rfl
          | some body =>
            dsimp only
            cases hb : body.candidates with
            | nil => rfl
            | cons c cs =>
              dsimp only
              cases hc : c.content.parts with
              | nil => rfl
              | cons p2 ps => rfl
        · rw [if_neg hs]

end AIService

namespace Main

theorem gradeStep_eq (st : GradeState) (q : Question) :
    gradeStep st q =
      { correct_count := st.correct_count + (if isCorrect q then 1 else 0)
        detailed := st.detailed ++ [detailedOf q]
        incorrect := st.incorrect ++ (incorrectOf q).toList } := by
  cases h1 : q.user_answer.isEmpty <;>
    by_cases h2 : q.user_answer.head?.getD "" = correctAnswer q <;>
      simp [gradeStep, detailedOf, incorrectOf, isCorrect, h1, h2]

theorem gradeGo_eq (qs : List Question) :
    ∀ st : GradeState, gradeGo st qs =
      { correct_count := st.correct_count + countCorrect qs
        detailed := st.detailed ++ qs.map detailedOf
        incorrect := st.incorrect ++ qs.filterMap incorrectOf } := by
  induction qs with
  | nil => intro st; simp [gradeGo, countCorrect]
  | cons q rest ih =>
    intro st
    rw [gradeGo, gradeStep_eq, ih]
    simp only [GradeState.mk.injEq]
    refine ⟨?_, ?_, ?_⟩
    · simp [countCorrect, Nat.add_assoc]
    · simp
    · cases h : incorrectOf q <;> simp [List.filterMap_cons, h]

end Main

/-! ## Claims -/

/-- Claim C1 (refuted on the source, exhibiting the failing run): with the
service enabled, a single incorrect-answer item and a 200 response whose only
candidate has an empty `parts` list, `get_batch_explanations` reaches no
`return` statement and yields Python `None` — no mapping at all — so its key
set cannot equal the set of keys derived from the input items, contrary to the
claimed coverage invariant (and to the function's own `-> dict` annotation). -/
theorem batch_explanations_missing_parts_no_mapping :
    (AIService.get_batch_explanations
      { api_key := "key", enabled := true, request_count := 0
        total_questions_processed := 0 }
      [{ question_data :=
           { id := 7, question := "q", options := ["a", "b"]
             correct := ["A"], user_answer := ["B"] }
         user_answer := "B", correct_answer := "A" }]
      (.response 200
        (some { candidates := [{ content := { parts := [] } }] }))).explanations =
      none :=
  rfl

/-- Claim C2 (refuted on the source, exhibiting the failing run): with the
service enabled and a non-empty batch, a 200 response whose body decodes to
`{"candidates": []}` makes `get_batch_explanations` fall off the end of the
`try` block and return Python `None` instead of the claimed per-item default
explanations; the caller's `explanations.get(key)` would then raise, so the
deviation is not handled "without raising any error" as claimed. -/
theorem batch_explanations_empty_candidates_no_mapping :
    (AIService.get_batch_explanations
      { api_key := "key", enabled := true, request_count := 1
        total_questions_processed := 2 }
      [{ question_data :=
           { id := 5, question := "q5", options := ["o1", "o2", "o3"]
             correct := ["C"], user_answer := ["A"] }
         user_answer := "A", correct_answer := "C" }]
      (.response 200 (some { candidates := [] }))).explanations =
      none :=
  rfl

/-- Claim C3: the grading loop marks a question correct exactly when the user
answer list is non-empty and its letter equals the correct letter; an
unanswered question is marked incorrect and never enters the incorrect-answer
batch; an answered wrong question enters the batch; and the batch lists the
questions in store collection order (`filterMap` over the collection). -/
theorem grading_marks_and_batches_correctly (qs : List Question) :
    (Main.gradeAll qs).detailed = qs.map Main.detailedOf
    ∧ (Main.gradeAll qs).incorrect = qs.filterMap Main.incorrectOf
    ∧ (∀ q ∈ qs, (Main.detailedOf q).is_correct = true ↔
        (q.user_answer ≠ [] ∧ q.user_answer.headD "" = Main.correctAnswer q))
    ∧ (∀ q ∈ qs, q.user_answer = [] →
        (Main.detailedOf q).is_correct = false ∧ Main.incorrectOf q = none)
    ∧ (∀ q ∈ qs, q.user_answer ≠ [] → (Main.detailedOf q).is_correct = false →
        Main.incorrectOf q = some
          { question_data := q, user_answer := q.user_answer.headD ""
            correct_answer := Main.correctAnswer q }) := by
  refine ⟨?_, ?_, ?_, ?_, ?_⟩
  · rw [Main.gradeAll, Main.gradeGo_eq]; simp
  · rw [Main.gradeAll, Main.gradeGo_eq]; simp
  · intro q _
    show Main.isCorrect q = true ↔ _
    cases hu : q.user_answer with
    | nil => simp [Main.isCorrect, hu]
    | cons a l => simp [Main.isCorrect, hu]
  · intro q _ hu
    refine ⟨?_, ?_⟩
    · show Main.isCorrect q = false
      simp [Main.isCorrect, hu]
    · simp [Main.incorrectOf, Main.isCorrect, hu]
  · intro q _ hne hic
    have hic' : Main.isCorrect q = false := hic
    rcases hq : q.user_answer with _ | ⟨a, l⟩
    · exact absurd hq hne
    · simp [Main.incorrectOf, hic', hq]

/-- Witness for claim C3 at a concrete store: an unanswered question is marked
incorrect and contributes nothing to the incorrect-answer batch. -/
theorem grading_marks_and_batches_correctly_witness :
    (Main.detailedOf
      { id := 1, question := "t", options := ["x", "y"]
        correct := ["B"], user_answer := [] }).is_correct = false
    ∧ Main.incorrectOf
      { id := 1, question := "t", options := ["x", "y"]
        correct := ["B"], user_answer := [] } = none :=
  (grading_marks_and_batches_correctly
      [{ id := 1, question := "t", options := ["x", "y"]
         correct := ["B"], user_answer := [] }]).2.2.2.1
    _ (List.mem_singleton.mpr rfl) rfl

/-- Claim C4: whenever the service is not enabled or the input list is empty,
`get_batch_explanations` returns the default-explanations mapping at once: the
state is untouched (no counter increment), no network call happens, every input
item's key is present in the returned mapping, and every stored value is the
default template for the (user, correct) pair of an input item carrying that
key.  The gate is the first thing the function evaluates. -/
theorem inactive_gate_returns_defaults (s : AIService.ServiceState)
    (items : List IncorrectItem) (outcome : AIService.ApiOutcome)
    (h : s.enabled = false ∨ items = []) :
    AIService.get_batch_explanations s items outcome =
      { explanations := some (AIService.defaultsMap items), state := s
        networkCalled := false }
    ∧ (∀ q ∈ items,
        containsKey (AIService.defaultsMap items) (AIService._get_question_key q) = true)
    ∧ (∀ k v, (k, v) ∈ AIService.defaultsMap items →
        ∃ q ∈ items, AIService._get_question_key q = k ∧
          v = AIService._get_default_explanation q.user_answer q.correct_answer) := by
  have hg : (!s.enabled || items.isEmpty) = true := by
    rcases h with h | h <;> simp [h]
  refine ⟨?_, ?_, ?_⟩
  · unfold AIService.get_batch_explanations
    rw [if_pos hg]
  · intro q hq
    rw [AIService.containsKey_defaultsMap]
    simp only [List.any_eq_true]
    exact ⟨q, hq, by simp⟩
  · intro k v hm
    rcases AIService.mem_defaultsGo items [] (k, v) hm with h' | ⟨q, hq, he⟩
    · exact absurd h' (List.not_mem_nil _)
    · rw [Prod.ext_iff] at he
      exact ⟨q, hq, he.1.symm, he.2⟩

/-- Witness for claim C4 at a concrete disabled service and one-item batch. -/
theorem inactive_gate_returns_defaults_witness :
    AIService.get_batch_explanations
      { api_key := "", enabled := false, request_count := 3
        total_questions_processed := 5 }
      [{ question_data :=
           { id := 1, question := "t", options := ["x"]
             correct := ["B"], user_answer := ["A"] }
         user_answer := "A", correct_answer := "B" }]
      .exception =
      { explanations := some (AIService.defaultsMap
          [{ question_data :=
               { id := 1, question := "t", options := ["x"]
                 correct := ["B"], user_answer := ["A"] }
             user_answer := "A", correct_answer := "B" }])
        state :=
          { api_key := "", enabled := false, request_count := 3
            total_questions_processed := 5 }
        networkCalled := false } :=
  (inactive_gate_returns_defaults _ _ _ (Or.inl rfl)).1

/-- Claim C5: the response parser degrades per item and never raises: a section
whose parse fails is skipped while the loop continues with the remaining
sections; after the filling pass an input key with no parsed section maps to
the default explanation of the first input item carrying that key, a parsed key
keeps its parsed text, every input key is present in the final mapping, and a
response with no occurrence of the header marker produces zero parsed sections
and hence only defaults. -/
theorem parse_batch_response_degrades_per_item (resp : String)
    (items : List IncorrectItem) :
    ((pySplitOn resp AIService.headerMarker).tail = [] →
      AIService.parsedExplanations resp items = [] ∧
      AIService._parse_batch_response resp items = AIService.fillDefaults [] items)
    ∧ (∀ (i : Nat) (acc : List (String × String)) (sec : String)
        (rest : List String), AIService.parseSection items i sec = none →
        AIService.parsedGo items i acc (sec :: rest) =
          AIService.parsedGo items (i + 1) acc rest)
    ∧ (∀ q ∈ items,
        containsKey (AIService.parsedExplanations resp items)
            (AIService._get_question_key q) = false →
        lookupKV (AIService._parse_batch_response resp items)
            (AIService._get_question_key q) =
          (items.find? (fun q2 =>
              AIService._get_question_key q2 == AIService._get_question_key q)).map
            (fun q2 =>
              AIService._get_default_explanation q2.user_answer q2.correct_answer))
    ∧ (∀ q ∈ items,
        containsKey (AIService.parsedExplanations resp items)
            (AIService._get_question_key q) = true →
        lookupKV (AIService._parse_batch_response resp items)
            (AIService._get_question_key q) =
          lookupKV (AIService.parsedExplanations resp items)
            (AIService._get_question_key q))
    ∧ (∀ q ∈ items,
        containsKey (AIService._parse_batch_response resp items)
          (AIService._get_question_key q) = true) := by
  refine ⟨?_, ?_, ?_, ?_, ?_⟩
  · intro hsplit
    refine ⟨?_, ?_⟩
    · rw [AIService.parsedExplanations, hsplit]; rfl
    · rw [AIService._parse_batch_response, AIService.parsedExplanations, hsplit]
      rfl
  · intro i acc sec rest hsec
    simp [AIService.parsedGo, hsec]
  · intro q _ hnc
    rw [AIService._parse_batch_response]
    exact AIService.lookupKV_fillDefaults_of_not_contains _ _ _ hnc
  · intro q _ hc
    rw [AIService._parse_batch_response]
    exact AIService.lookupKV_fillDefaults_of_contains _ _ _ hc
  · intro q hq
    rw [AIService._parse_batch_response, AIService.containsKey_fillDefaults]
    simp only [Bool.or_eq_true, List.any_eq_true]
    exact Or.inr ⟨q, hq, by simp⟩

/-- Witness for claim C5: a response with no header marker yields zero parsed
sections, so the result is the pure default-filling pass. -/
theorem parse_batch_response_degrades_per_item_witness :
    AIService.parsedExplanations "no marker here"
      [{ question_data :=
           { id := 3, question := "q", options := ["a"]
             correct := ["A"], user_answer := ["B"] }
         user_answer := "B", correct_answer := "A" }] = []
    ∧ AIService._parse_batch_response "no marker here"
      [{ question_data :=
           { id := 3, question := "q", options := ["a"]
             correct := ["A"], user_answer := ["B"] }
         user_answer := "B", correct_answer := "A" }] =
      AIService.fillDefaults []
        [{ question_data :=
             { id := 3, question := "q", options := ["a"]
               correct := ["A"], user_answer := ["B"] }
           user_answer := "B", correct_answer := "A" }] :=
  (parse_batch_response_degrades_per_item "no marker here" _).1 rfl

/-- Claim C6: the producer's question key (`AIExplanationService._get_question_key`)
and the consumer's recomputed key (`get_results`, line 177) agree as functions
of the (id, user answer, correct answer) triple. -/
theorem question_key_derivations_agree (item : IncorrectItem) :
    AIService._get_question_key item =
      Main.explanationKey item.question_data.id item.user_answer
        item.correct_answer :=
  rfl

/-- Claim C7: on every enabled, non-empty batch call the request counter grows
by exactly one and the questions-processed counter by exactly the batch length,
whatever the outcome of the external call (exception, non-200 status, malformed
body, or success), because the increments happen before the call is attempted;
in particular both counters are monotonically non-decreasing under calls. -/
theorem counters_increment_before_network_call (s : AIService.ServiceState)
    (items : List IncorrectItem) (outcome : AIService.ApiOutcome)
    (h1 : s.enabled = true) (h2 : items ≠ []) :
    ((AIService.get_batch_explanations s items outcome).state.request_count =
        s.request_count + 1)
    ∧ ((AIService.get_batch_explanations s items outcome).state.total_questions_processed =
        s.total_questions_processed + items.length)
    ∧ s.request_count ≤
        (AIService.get_batch_explanations s items outcome).state.request_count
    ∧ s.total_questions_processed ≤
        (AIService.get_batch_explanations s items outcome).state.total_questions_processed := by
  have hg : (!s.enabled || items.isEmpty) = false := by
    cases items with
    | nil => exact absurd rfl h2
    | cons a l => simp [h1]
  rw [AIService.get_batch_explanations_state, hg]
  simp [AIService.bumpCounters]

/-- Witness for claim C7: a concrete enabled call whose network request throws
still counts one request and one processed question. -/
theorem counters_increment_before_network_call_witness :
    ((AIService.get_batch_explanations
        { api_key := "k", enabled := true, request_count := 0
          total_questions_processed := 0 }
        [{ question_data :=
             { id := 2, question := "q", options := ["x", "y"]
               correct := ["A"], user_answer := ["B"] }
           user_answer := "B", correct_answer := "A" }]
        .exception).state.request_count = 1) :=
  (counters_increment_before_network_call _ _ .exception rfl
    (List.cons_ne_nil _ _)).1

/-- Claim C8: the summary percentage is `(correct / total) * 100` rounded to
two decimal places, is `0` when the total question count is `0` (no division
error), and equals exactly `66.67` for 2 correct out of 3 (exact-arithmetic
model over `ℚ` of the source's float computation, with Python's
round-half-to-even). -/
theorem percentage_rounded_two_decimals (c t : Nat) :
    (t = 0 → Main.resultPercentage c t = 0)
    ∧ (0 < t → Main.resultPercentage c t =
        Main.roundTo2 (((c : ℚ) / t) * 100))
    ∧ Main.resultPercentage 2 3 = 6667 / 100 := by
  refine ⟨?_, ?_, ?_⟩
  · rintro rfl
    rw [Main.resultPercentage, if_neg (by omega)]
    norm_num [Main.roundTo2, Main.roundHalfEven]
  · intro ht
    rw [Main.resultPercentage, if_pos ht]
  · rw [Main.resultPercentage, if_pos (by norm_num : (0 : ℕ) < 3), Main.roundTo2]
    have harg : ((((2 : ℕ) : ℚ) / ((3 : ℕ) : ℚ)) * 100) * 100 = 20000 / 3 := by
      norm_num
    rw [harg, Main.roundHalfEven]
    have hfloor : ⌊(20000 / 3 : ℚ)⌋ = 6666 := by norm_num
    rw [hfloor]
    rw [if_neg (by norm_num), if_pos (by norm_num)]
    norm_num

/-- Witness for claim C8: an empty quiz yields percentage 0 with no division
error. -/
theorem percentage_rounded_two_decimals_witness :
    Main.resultPercentage 7 0 = 0 :=
  (percentage_rounded_two_decimals 7 0).1 rfl

/-- Claim C9: in every service state, resetting the statistics and then reading
them yields zero for both counters while the enabled flag and the
api-key-configured flag are exactly what `get_statistics` reported before the
reset; both operations are total, so neither can raise. -/
theorem reset_then_get_statistics_zeroes_counters (s : AIService.ServiceState) :
    (AIService.get_statistics (AIService.reset_statistics s)).total_requests = 0
    ∧ (AIService.get_statistics
        (AIService.reset_statistics s)).total_questions_processed = 0
    ∧ (AIService.get_statistics (AIService.reset_statistics s)).enabled =
        (AIService.get_statistics s).enabled
    ∧ (AIService.get_statistics (AIService.reset_statistics s)).api_key_configured =
        (AIService.get_statistics s).api_key_configured :=
  ⟨rfl, rfl, rfl, rfl⟩

/-- Claim C10: if any question of an enabled, non-empty batch has more than
four options, prompt construction hits `option_labels[j]` out of range
(`IndexError`, modelled by `none`), the exception is caught inside
`get_batch_explanations`, and the call returns the default explanation mapping
for the whole batch without attempting the network call — the public operation
propagates no error. -/
theorem oversized_options_fall_back_to_defaults (s : AIService.ServiceState)
    (items : List IncorrectItem) (outcome : AIService.ApiOutcome)
    (q : IncorrectItem) (h1 : s.enabled = true) (h2 : items ≠ [])
    (hq : q ∈ items) (hlen : 4 < q.question_data.options.length) :
    AIService._create_batch_prompt items = none
    ∧ AIService.get_batch_explanations s items outcome =
        { explanations := some (AIService.defaultsMap items)
          state := AIService.bumpCounters s items.length
          networkCalled := false } := by
  have hp := AIService.create_batch_prompt_none items q hq hlen
  refine ⟨hp, ?_⟩
  have hg : (!s.enabled || items.isEmpty) = false := by
    cases items with
    | nil => exact absurd rfl h2
    | cons a l => simp [h1]
  unfold AIService.get_batch_explanations
  rw [if_neg (by simp [hg]), hp]

/-- Witness for claim C10: a five-option question makes prompt construction
fail. -/
theorem oversized_options_fall_back_to_defaults_witness :
    AIService._create_batch_prompt
      [{ question_data :=
           { id := 9, question := "t", options := ["a", "b", "c", "d", "e"]
             correct := ["A"], user_answer := ["B"] }
         user_answer := "B", correct_answer := "A" }] = none :=
  (oversized_options_fall_back_to_defaults
    { api_key := "k", enabled := true, request_count := 0
      total_questions_processed := 0 }
    [{ question_data :=
         { id := 9, question := "t", options := ["a", "b", "c", "d", "e"]
           correct := ["A"], user_answer := ["B"] }
       user_answer := "B", correct_answer := "A" }]
    .exception
    { question_data :=
        { id := 9, question := "t", options := ["a", "b", "c", "d", "e"]
          correct := ["A"], user_answer := ["B"] }
      user_answer := "B", correct_answer := "A" }
    rfl (List.cons_ne_nil _ _) (List.mem_singleton.mpr rfl) (by decide)).1

end Quiz
